import Mathlib

/-!
Verification development for the fantasy-basketball simulation and
trade-search engine (`analysis_lib.py`, `game_picker_lib.py`, `main.py`).

Conventions of the shallow embedding:
* Python floats become `ℚ`; integer counts become `Nat` (cast where the
  source multiplies them by float weights).
* Python dicts become association lists `List (κ × α)`; sequential
  assignment semantics (last write wins) is modelled by `py_dict_get`.
* Python's shared random generator is modelled by explicit oracle
  functions (`rand`, `pick`, `coin`) passed as parameters: they decide
  the same branches the random draws decide, but carry no distribution.
* `sys.exit` / uncaught exceptions become `Except` errors carrying the
  printed diagnostics.
-/

namespace FantasyBball

/-- Python `dict` lookup built by sequential assignment: the LAST binding
of a key wins, `none` when the key is absent. -/
def py_dict_get {κ α : Type} [DecidableEq κ] (pairs : List (κ × α)) (k : κ) :
    Option α :=
  pairs.foldl (fun acc kv => if kv.1 = k then some kv.2 else acc) none

/-- One simulated fantasy-week aggregate: the 11 stat keys of
`ALL_STAT_KEYS` in `analysis_lib.py`. -/
structure Week where
  pts : ℚ
  reb : ℚ
  ast : ℚ
  stl : ℚ
  blk : ℚ
  tpm : ℚ
  tov : ℚ
  fga : ℚ
  fgm : ℚ
  fta : ℚ
  ftm : ℚ
  deriving DecidableEq

/-- The all-zero week (`{key: 0.0 for key in ALL_STAT_KEYS}`). -/
def zeroWeek : Week := ⟨0, 0, 0, 0, 0, 0, 0, 0, 0, 0, 0⟩

/-- Field-by-field sum of two weeks. -/
def weekAdd (a b : Week) : Week :=
  ⟨a.pts + b.pts, a.reb + b.reb, a.ast + b.ast, a.stl + b.stl,
   a.blk + b.blk, a.tpm + b.tpm, a.tov + b.tov, a.fga + b.fga,
   a.fgm + b.fgm, a.fta + b.fta, a.ftm + b.ftm⟩

/-- One historical box-score line (`GameStats` row), restricted to the
fields the simulation core reads. -/
structure GameRec where
  minutes_played : Option String
  points : ℚ
  total_rebounds : ℚ
  assists : ℚ
  steals : ℚ
  blocks : ℚ
  three_pointers : ℚ
  turnovers : ℚ
  field_goal_attempts : ℚ
  field_goals : ℚ
  free_throw_attempts : ℚ
  free_throws : ℚ
  deriving DecidableEq

/-- `_create_dummy_game` in `game_picker_lib.py`: the synthetic zero-stat
DNP game. -/
def dummyGame : GameRec :=
  ⟨some "00:00", 0, 0, 0, 0, 0, 0, 0, 0, 0, 0, 0⟩

/-! ## analysis_lib.py: constants and helpers -/

def EXPECTED_ROSTER_SIZE : Nat := 13

/-- `filter_roster`: keeps a player id when its status survives the
scenario's rule (FullStrength drops `'DROP'`, Current drops `'INJ'`). -/
def filter_roster (full_roster : List (String × Option String))
    (is_full_strength : Bool) : List String :=
  match full_roster with
  | [] => []
  | (player_id, status) :: rest =>
    if is_full_strength then
      if status ≠ some "DROP" then player_id :: filter_roster rest is_full_strength
      else filter_roster rest is_full_strength
    else
      if status ≠ some "INJ" then player_id :: filter_roster rest is_full_strength
      else filter_roster rest is_full_strength

/-- The diagnostics printed by `validate_and_crash_if_invalid_roster`
before `sys.exit(1)`: team, scenario, expected vs. actual count, and the
offending roster id list. -/
structure RosterErr where
  team : String
  scen : String
  expected : Nat
  actual : Nat
  roster : List String
  deriving DecidableEq

deriving instance DecidableEq for Except

/-- `validate_and_crash_if_invalid_roster`: returns immediately for the
`"FreeAgents"` pool, otherwise crashes (modelled as `Except.error` with
the printed diagnostics) when the roster size differs from
`EXPECTED_ROSTER_SIZE`. -/
def validate_and_crash_if_invalid_roster (team_name : String)
    (roster_ids : List String) (scen : String) : Except RosterErr Unit :=
  if team_name = "FreeAgents" then .ok ()
  else if roster_ids.length ≠ EXPECTED_ROSTER_SIZE then
    .error ⟨team_name, scen, EXPECTED_ROSTER_SIZE, roster_ids.length, roster_ids⟩
  else .ok ()

/-- `build_team_weeks_from_players`: for each week index `k`, sums the
`k`-th pre-simulated week of every roster player; a player missing from
the map (or with an empty week list) contributes nothing.  The source
indexes `player_week_k_stats[k]` directly; `getD k zeroWeek` agrees with
it whenever every stored series has length ≥ `num_weeks` (the invariant
established by `pre_simulate_player_weeks`). -/
def build_team_weeks_from_players (roster_player_ids : List String)
    (player_weekly_stats_map : List (String × List Week))
    (num_weeks : Nat) : List Week :=
  (List.range num_weeks).map fun k =>
    roster_player_ids.foldl
      (fun acc player_id =>
        match py_dict_get player_weekly_stats_map player_id with
        | none => acc
        | some [] => acc
        | some (w :: ws) => weekAdd acc ((w :: ws).getD k zeroWeek))
      zeroWeek

/-! ## analysis_lib.py: the matchup comparator (`compare_n_weeks`) -/

/-- The 9 scored fantasy categories (`CATEGORIES`); `tov` is `'to'`,
`fgp`/`ftp` are `'fg%'`/`'ft%'`. -/
inductive CatN
  | pts | reb | ast | stl | blk | tpm | tov | fgp | ftp
  deriving DecidableEq

/-- The comparator's output keys: the 9 categories plus `'overall'`. -/
inductive CatK
  | cat (c : CatN)
  | overall
  deriving DecidableEq

/-- Higher-total-wins comparison: 1 / 0 / ½ exactly as the source's
`if/elif/else` chain. -/
def winHigher (a b : ℚ) : ℚ :=
  if a > b then 1 else if a < b then 0 else 1/2

/-- Turnover comparison: lower total wins. -/
def winLower (a b : ℚ) : ℚ :=
  if a < b then 1 else if a > b then 0 else 1/2

/-- `t1_totals['fgm'] / t1_totals['fga'] if t1_totals['fga'] > 0 else 0`. -/
def fg_pct (t : Week) : ℚ := if t.fga > 0 then t.fgm / t.fga else 0

/-- `t1_totals['ftm'] / t1_totals['fta'] if t1_totals['fta'] > 0 else 0`. -/
def ft_pct (t : Week) : ℚ := if t.fta > 0 then t.ftm / t.fta else 0

/-- One week's per-category result for team 1 (`t1_weekly_wins[cat]`). -/
def week_cat_win (t1 t2 : Week) : CatN → ℚ
  | .pts => winHigher t1.pts t2.pts
  | .reb => winHigher t1.reb t2.reb
  | .ast => winHigher t1.ast t2.ast
  | .stl => winHigher t1.stl t2.stl
  | .blk => winHigher t1.blk t2.blk
  | .tpm => winHigher t1.tpm t2.tpm
  | .tov => winLower t1.tov t2.tov
  | .fgp => winHigher (fg_pct t1) (fg_pct t2)
  | .ftp => winHigher (ft_pct t1) (ft_pct t2)

/-- `total_cat_wins = sum(t1_weekly_wins.values())` over the 9 categories. -/
def week_cat_total (t1 t2 : Week) : ℚ :=
  ([CatN.pts, .reb, .ast, .stl, .blk, .tpm, .tov, .fgp, .ftp].map
    (week_cat_win t1 t2)).sum

/-- The week-level overall outcome: win above 4.5 category points, tie at
exactly 4.5, loss below. -/
def week_overall_win (t1 t2 : Week) : ℚ :=
  if week_cat_total t1 t2 > 9/2 then 1
  else if week_cat_total t1 t2 = 9/2 then 1/2
  else 0

/-- One week's result for a comparator output key. -/
def week_win (t1 t2 : Week) : CatK → ℚ
  | .cat c => week_cat_win t1 t2 c
  | .overall => week_overall_win t1 t2

/-- `compare_n_weeks`: mean week result per key; 0 everywhere when the
week list is empty.  The source iterates `k in range(len(t1_week_list))`
reading `t2_week_list[k]`, which on lists of equal length is the zip. -/
def compare_n_weeks (t1_week_list t2_week_list : List Week) (c : CatK) : ℚ :=
  if t1_week_list.length = 0 then 0
  else
    ((t1_week_list.zip t2_week_list).map fun p => week_win p.1 p.2 c).sum /
      t1_week_list.length

/-! ## game_picker_lib.py: availability estimator -/

/-- One row of the grouped availability query: a player's season with its
game count (`total_games`) and non-DNP game count (`games_played`). -/
structure SeasonRow where
  season : Nat
  total_games : Nat
  games_played : Nat
  deriving DecidableEq

/-- `weights_map.get(season, 0)` where `weights_map = dict(year_weights)`. -/
def weight_of (year_weights : List (Nat × ℚ)) (season : Nat) : ℚ :=
  (py_dict_get year_weights season).getD 0

/-- The accumulator of step 3 of `predict_all_player_probabilities`:
weighted games-played, weighted total-games, and total weight. -/
structure VirtStats where
  gp : ℚ
  tg : ℚ
  w : ℚ
  deriving DecidableEq

/-- One iteration of the `virtual_stats` accumulation: rows whose season
weight is not positive are skipped. -/
def accum_virtual (year_weights : List (Nat × ℚ)) (v : VirtStats)
    (r : SeasonRow) : VirtStats :=
  let w := weight_of year_weights r.season
  if 0 < w then
    ⟨v.gp + (r.games_played : ℚ) * w, v.tg + (r.total_games : ℚ) * w, v.w + w⟩
  else v

/-- `max(0.0, min(1.0, prob))`. -/
def clamp01 (x : ℚ) : ℚ := max 0 (min 1 x)

/-- The per-player core of `predict_all_player_probabilities`: fold the
player's season rows into a virtual season, then either Bayesian-smooth
(`(virtual_gp + p0*s0) / (virtual_tg + s0)`) or fall back to the prior
`p0`; the result is clamped to `[0,1]`. -/
def predict_player_probability (year_weights : List (Nat × ℚ))
    (rows : List SeasonRow) (p0 s0 : ℚ) : ℚ :=
  let v := rows.foldl (accum_virtual year_weights) ⟨0, 0, 0⟩
  clamp01 (if 0 < v.w then
      ((v.gp / v.w) + p0 * s0) / ((v.tg / v.w) + s0)
    else p0)

/-! ## game_picker_lib.py: game pool sampler -/

/-- One draw of `generate_weighted_game_samples`: when dummy injection is
on and the uniform draw `r` exceeds the availability probability, emit a
DNP game; otherwise sample from the pool, falling back to a DNP game when
the pool is empty. -/
def sample_one_game (include_dummy_games : Bool) (availability_prob : ℚ)
    (pool : List GameRec) (r : ℚ) (idx : Nat) : GameRec :=
  if include_dummy_games ∧ availability_prob < r then dummyGame
  else if pool = [] then dummyGame
  else pool.getD (idx % pool.length) dummyGame

/-- The per-player sampling loop of `generate_weighted_game_samples`:
`num_games` draws, availability defaulting to 0.85 when the player is
absent from the prediction map, pool defaulting to empty. -/
def sample_games_for_player (num_games : Nat)
    (pools : List (String × List GameRec))
    (availability_predictions : List (String × ℚ))
    (include_dummy_games : Bool)
    (rand : String → Nat → ℚ) (pick : String → Nat → Nat)
    (player_id : String) : List GameRec :=
  (List.range num_games).map fun i =>
    sample_one_game include_dummy_games
      ((py_dict_get availability_predictions player_id).getD (85/100))
      ((py_dict_get pools player_id).getD [])
      (rand player_id i) (pick player_id i)

/-- `generate_weighted_game_samples`. `pools` maps a player id to its
weighted pool of played games (absent entry = player with no eligible
games).  The random draws are oracles: `rand` gives the uniform
availability draw for (player, iteration) and `pick` the pool index the
weighted `random.choices` call lands on (season weights bias only the
distribution, which the oracle abstracts). -/
def generate_weighted_game_samples (player_ids : List String)
    (num_games : Nat) (pools : List (String × List GameRec))
    (availability_predictions : List (String × ℚ))
    (include_dummy_games : Bool)
    (rand : String → Nat → ℚ) (pick : String → Nat → Nat) :
    List (String × List GameRec) :=
  player_ids.map fun player_id =>
    (player_id, sample_games_for_player num_games pools
      availability_predictions include_dummy_games rand pick player_id)

/-! ## main.py: player-week pre-simulation -/

/-- The inner accumulation of `pre_simulate_player_weeks`: add one
sampled game's counting stats to the running weekly totals. -/
def add_game_to_week (w : Week) (g : GameRec) : Week :=
  ⟨w.pts + g.points, w.reb + g.total_rebounds, w.ast + g.assists,
   w.stl + g.steals, w.blk + g.blocks, w.tpm + g.three_pointers,
   w.tov + g.turnovers, w.fga + g.field_goal_attempts,
   w.fgm + g.field_goals, w.fta + g.free_throw_attempts,
   w.ftm + g.free_throws⟩

/-- Sum a drawn game list into one simulated week. -/
def sum_games_week (gs : List GameRec) : Week :=
  gs.foldl add_game_to_week zeroWeek

/-- `random.sample(player_pool, num_games)`: draws `k` games; raises
`ValueError` (modelled as `none`) when the pool holds fewer than `k`
games.  The oracle `pick` selects the indices; the source draws without
replacement, which affects only the distribution, not the claims on
lengths and zero-stat substitution. -/
def py_random_sample (pool : List GameRec) (k : Nat) (pick : Nat → Nat) :
    Option (List GameRec) :=
  if pool.length < k then none
  else some ((List.range k).map fun j => pool.getD (pick j % pool.length) dummyGame)

/-- Option-valued traversal used to model a loop that can raise. -/
def optionMap {α β : Type} (f : α → Option β) : List α → Option (List β)
  | [] => some []
  | x :: xs =>
    match f x with
    | none => none
    | some y =>
      match optionMap f xs with
      | none => none
      | some ys => some (y :: ys)

/-- One player's body of `pre_simulate_player_weeks`: an empty or missing
pool yields `num_weeks` copies of the all-zero dummy week; otherwise each
week draws 3 or 4 games (`coin` decides the 50/50) from the pool and sums
them. -/
def simulate_weeks_for_player (pool : Option (List GameRec))
    (num_weeks : Nat) (coin : Nat → Bool) (pick : Nat → Nat → Nat) :
    Option (List Week) :=
  match pool with
  | none => some (List.replicate num_weeks zeroWeek)
  | some [] => some (List.replicate num_weeks zeroWeek)
  | some (g :: gs) =>
    optionMap (fun k =>
        let num_games := if coin k then 3 else 4
        (py_random_sample (g :: gs) num_games (pick k)).map sum_games_week)
      (List.range num_weeks)

/-- `pre_simulate_player_weeks` over the whole player id set; `none`
models the `ValueError` crash of `random.sample` on a too-small pool. -/
def pre_simulate_player_weeks (game_pools : List (String × List GameRec))
    (player_id_set : List String) (num_weeks : Nat)
    (coin : String → Nat → Bool) (pick : String → Nat → Nat → Nat) :
    Option (List (String × List Week)) :=
  optionMap (fun player_id =>
      (simulate_weeks_for_player (py_dict_get game_pools player_id) num_weeks
          (coin player_id) (pick player_id)).map
        (fun ws => (player_id, ws)))
    player_id_set

/-! ## analysis_lib.py: trade search (`find_trades`) -/

/-- `get_tradable_players` (closure inside `find_trades`): skips a player
only when trading with a real team, injured trades are disallowed, and
the player's status is `'INJ'`. -/
def get_tradable_players (team2_name : String)
    (allow_trading_injured : Bool)
    (roster_tuples : List (String × Option String)) : List String :=
  match roster_tuples with
  | [] => []
  | (pid, status) :: rest =>
    if team2_name ≠ "FreeAgents" ∧ allow_trading_injured = false ∧
        status = some "INJ" then
      get_tradable_players team2_name allow_trading_injured rest
    else pid :: get_tradable_players team2_name allow_trading_injured rest

/-- The inputs of one `find_trades` run that the per-candidate loop body
reads: the two teams, their full roster tuples, the uninvolved opponents
with their baseline team-week series (`all_team_weekly_stats` lookup),
the baseline overall win probabilities (`all_h2h_probs` restricted to
`'overall'`), the pre-simulated player weeks, and the configuration. -/
structure TradeEnv where
  team1 : String
  team2 : String
  t1_roster : List (String × Option String)
  t2_roster : List (String × Option String)
  other_teams : List String
  team_weeks : String → String → List Week
  h2h : String → String → String → Option ℚ
  stats : List (String × List Week)
  n_weeks : Nat
  tol : ℚ
  required : List String

/-- `player_status_map`: built by assigning team-1 tuples then team-2
tuples, so a later binding overwrites an earlier one. -/
def status_pairs (env : TradeEnv) : List (String × Option String) :=
  env.t1_roster ++ env.t2_roster

/-- `player_status_map.get(p)`: `None` both for an absent player and for
a stored `None` status. -/
def status_of (env : TradeEnv) (p : String) : Option String :=
  (py_dict_get (status_pairs env) p).join

/-- `player_status_map.get(p, 'Active')`: an absent player defaults to
`'Active'`, a stored `None` stays `None`. -/
def status_or_active (env : TradeEnv) (p : String) : Option String :=
  match py_dict_get (status_pairs env) p with
  | some st => st
  | none => some "Active"

/-- `sum(1 for p in out if player_status_map.get(p) == st)`. -/
def count_status (env : TradeEnv) (out : List String) (st : String) : Nat :=
  out.countP fun p => status_of env p = some st

/-- Check 1 of the candidate loop: when a required-player list is given,
every required player must be involved in the trade. -/
def passes_required (env : TradeEnv) (t1_out t2_out : List String) : Bool :=
  env.required.all fun p => t1_out.contains p || t2_out.contains p

/-- Check 2 of the candidate loop: real-team trades must exchange equal
`'DROP'` and equal `'INJ'` counts; free-agent trades must send out no
`'INJ'` player. -/
def passes_symmetry (env : TradeEnv) (t1_out t2_out : List String) : Bool :=
  if env.team2 = "FreeAgents" then
    count_status env t1_out "INJ" = 0
  else
    count_status env t1_out "DROP" = count_status env t2_out "DROP" ∧
      count_status env t1_out "INJ" = count_status env t2_out "INJ"

/-- Check 2.5: `'DROP'` players leaving team 1, counted only in the
free-agent mode. -/
def drops_exiting_t1 (env : TradeEnv) (t1_out : List String) : Nat :=
  if env.team2 = "FreeAgents" then count_status env t1_out "DROP" else 0

/-- The players-entering-team-1 loop: each incoming player keeps its
original status (defaulting to `'Active'` for free agents) except that,
in free-agent mode, the first `drops_to_assign` incoming players are
re-marked `'DROP'`; the scenario's filter rule then decides admission. -/
def add_entering_t1 (env : TradeEnv) (is_fs : Bool) :
    List String → Nat → List String
  | [], _ => []
  | p :: ps, drops_to_assign =>
    let status₀ := status_or_active env p
    let status := if env.team2 = "FreeAgents" ∧ 0 < drops_to_assign then
        some "DROP" else status₀
    let drops' := if env.team2 = "FreeAgents" ∧ 0 < drops_to_assign then
        drops_to_assign - 1 else drops_to_assign
    if is_fs then
      if status ≠ some "DROP" then p :: add_entering_t1 env is_fs ps drops'
      else add_entering_t1 env is_fs ps drops'
    else
      if status ≠ some "INJ" then p :: add_entering_t1 env is_fs ps drops'
      else add_entering_t1 env is_fs ps drops'

/-- The players-entering-team-2 loop (real-team mode only): team-1's
outgoing players join team 2 under the scenario's filter rule. -/
def add_entering_t2 (env : TradeEnv) (is_fs : Bool)
    (t1_out : List String) : List String :=
  t1_out.filter fun p =>
    if is_fs then status_of env p ≠ some "DROP"
    else status_of env p ≠ some "INJ"

/-- `baseline_data[scen][team1][x]` as used: present exactly when
`all_h2h_probs` holds the `(team1, x, scen)` key, read with default 0.5. -/
def base_t1 (env : TradeEnv) (scen other : String) : ℚ :=
  (env.h2h env.team1 other scen).getD (1/2)

/-- `baseline_data[scen][team2][other]` for an uninvolved opponent. -/
def base_t2_other (env : TradeEnv) (scen other : String) : ℚ :=
  (env.h2h env.team2 other scen).getD (1/2)

/-- `baseline_data[scen][team2][team1]`: set from the stored inverse
pairing when present, else as `1 - h2h(team1, team2)`, and only when the
forward key exists; missing entries read as 0.5. -/
def base_t2_vs_t1 (env : TradeEnv) (scen : String) : ℚ :=
  match env.h2h env.team1 env.team2 scen with
  | none => 1/2
  | some q =>
    match env.h2h env.team2 env.team1 scen with
    | some q2 => q2
    | none => 1 - q

/-- One scenario of the candidate loop: construct both hypothetical
active rosters, re-validate them (fatal abort modelled as `Except.error`),
rebuild team weeks, and return the pair
`(t1_gain_sum, t2_gain_sum)` of summed win-probability deltas versus
baseline (team 2's stays 0 in free-agent mode). -/
def check_scen (env : TradeEnv) (t1_out t2_out : List String)
    (scen : String) : Except RosterErr (ℚ × ℚ) := do
  let is_fs := scen = "FullStrength"
  let t1_active := filter_roster env.t1_roster is_fs
  let t1_base := t1_active.filter fun p => !(t1_out.contains p)
  let t1_new := t1_base ++
    add_entering_t1 env is_fs t2_out (drops_exiting_t1 env t1_out)
  let t2_new :=
    if env.team2 = "FreeAgents" then []
    else
      ((filter_roster env.t2_roster is_fs).filter
        fun p => !(t2_out.contains p)) ++ add_entering_t2 env is_fs t1_out
  validate_and_crash_if_invalid_roster env.team1 t1_new scen
  (if env.team2 = "FreeAgents" then .ok ()
   else validate_and_crash_if_invalid_roster env.team2 t2_new scen)
  let t1_new_weeks := build_team_weeks_from_players t1_new env.stats env.n_weeks
  let t2_new_weeks :=
    if env.team2 = "FreeAgents" then []
    else build_team_weeks_from_players t2_new env.stats env.n_weeks
  let t1_others : ℚ :=
    (env.other_teams.map fun o =>
      compare_n_weeks t1_new_weeks (env.team_weeks o scen) .overall -
        base_t1 env scen o).sum
  let t2_others : ℚ :=
    if env.team2 = "FreeAgents" then 0
    else
      (env.other_teams.map fun o =>
        compare_n_weeks t2_new_weeks (env.team_weeks o scen) .overall -
          base_t2_other env scen o).sum
  if env.team2 = "FreeAgents" then
    pure (t1_others, 0)
  else
    let ov12 := compare_n_weeks t1_new_weeks t2_new_weeks .overall
    let t1_gain := t1_others + (ov12 - base_t1 env scen env.team2)
    let t2_gain := t2_others + ((1 - ov12) - base_t2_vs_t1 env scen)
    pure (t1_gain, t2_gain)

/-- The acceptance test on one scenario's gain pair: team 1's summed gain
must be strictly positive, and for a real team 2 the summed loss must not
exceed the tolerance. -/
def accept_gains (team2 : String) (tol : ℚ) (g : ℚ × ℚ) : Bool :=
  if g.1 ≤ 0 then false
  else if team2 ≠ "FreeAgents" ∧ g.2 < -tol then false
  else true

/-- Whether one candidate `(t1_out, t2_out)` is appended to
`successful_trades`: the required-player and status-symmetry checks must
pass, then the FullStrength scenario and (unless it already failed) the
Current scenario must each satisfy the acceptance test; a roster
validation failure inside either scenario kills the whole run. -/
def candidate_accepted (env : TradeEnv) (t1_out t2_out : List String) :
    Except RosterErr Bool :=
  if passes_required env t1_out t2_out = false then .ok false
  else if passes_symmetry env t1_out t2_out = false then .ok false
  else
    match check_scen env t1_out t2_out "FullStrength" with
    | .error e => .error e
    | .ok g1 =>
      if accept_gains env.team2 env.tol g1 = false then .ok false
      else
        match check_scen env t1_out t2_out "Current" with
        | .error e => .error e
        | .ok g2 => .ok (accept_gains env.team2 env.tol g2)

/-! ## analysis_lib.py: league simulation orchestrator team-build phase -/

/-- One team's slice of the `run_league_simulation` build loop: for the
FullStrength then the Current scenario, filter the roster, validate it
(fatal abort on size mismatch for a non-`"FreeAgents"` team), then build
its team-week series.  Returns the `(FullStrength, Current)` series. -/
def build_team_entry (team_name : String)
    (team_full_roster : List (String × Option String))
    (player_weekly_stats_map : List (String × List Week))
    (n_sim_weeks : Nat) : Except RosterErr (List Week × List Week) :=
  match validate_and_crash_if_invalid_roster team_name
      (filter_roster team_full_roster true) "FullStrength" with
  | .error e => .error e
  | .ok _ =>
    let fs_weeks := build_team_weeks_from_players
      (filter_roster team_full_roster true) player_weekly_stats_map n_sim_weeks
    match validate_and_crash_if_invalid_roster team_name
        (filter_roster team_full_roster false) "Current" with
    | .error e => .error e
    | .ok _ =>
      let cur_weeks := build_team_weeks_from_players
        (filter_roster team_full_roster false) player_weekly_stats_map
        n_sim_weeks
      .ok (fs_weeks, cur_weeks)

/-- Except-valued traversal mirroring a loop that can crash the run. -/
def exceptMap {ε α β : Type} (f : α → Except ε β) :
    List α → Except ε (List β)
  | [] => .ok []
  | x :: xs =>
    match f x with
    | .error e => .error e
    | .ok y =>
      match exceptMap f xs with
      | .error e => .error e
      | .ok ys => .ok (y :: ys)

/-- The whole team-build phase of `run_league_simulation`, over the teams
of the roster map in iteration order. -/
def build_phase (rosters : List (String × List (String × Option String)))
    (player_weekly_stats_map : List (String × List Week))
    (n_sim_weeks : Nat) :
    Except RosterErr (List (String × (List Week × List Week))) :=
  exceptMap (fun tr =>
      (build_team_entry tr.1 tr.2 player_weekly_stats_map n_sim_weeks).map
        (fun p => (tr.1, p)))
    rosters

/-! ## Shared helper lemmas -/

theorem py_dict_get_map_self {κ α : Type} [DecidableEq κ] (f : κ → α)
    (l : List κ) (k : κ) :
    py_dict_get (l.map fun x => (x, f x)) k =
      if k ∈ l then some (f k) else none := by
  have aux : ∀ (l : List κ) (acc : Option α),
      (l.map fun x => (x, f x)).foldl
          (fun acc kv => if kv.1 = k then some kv.2 else acc) acc =
        if k ∈ l then some (f k) else acc := by
    intro l
    induction l with
    | nil => intro acc; simp
    | cons x xs ih =>
      intro acc
      simp only [List.map_cons, List.foldl_cons, List.mem_cons]
      rw [ih]
      by_cases hx : k ∈ xs
      · simp [hx]
      · by_cases hk : x = k
        · subst hk; simp [hx]
        · have : ¬k = x := fun h => hk h.symm
          simp [hx, hk, this]
  simpa [py_dict_get] using aux l none

theorem optionMap_eq_map {α β : Type} {f : α → Option β} {g : α → β}
    (l : List α) (h : ∀ x ∈ l, f x = some (g x)) :
    optionMap f l = some (l.map g) := by
  induction l with
  | nil => simp [optionMap]
  | cons x xs ih =>
    have hx : f x = some (g x) := h x (by simp)
    have hxs : optionMap f xs = some (xs.map g) :=
      ih fun y hy => h y (by simp [hy])
    simp [optionMap, hx, hxs]

/-! ## C10: the roster validator skips the FreeAgents pool entirely -/

/-- C10: for any roster id list and any scenario, calling the validator
with team name `"FreeAgents"` returns immediately without any size
check, so the expected-roster-size invariant is never enforced for the
synthetic free-agent side, whatever the roster size. -/
theorem validate_free_agents_no_check (roster_ids : List String)
    (scen : String) :
    validate_and_crash_if_invalid_roster "FreeAgents" roster_ids scen =
      .ok () := by
  simp [validate_and_crash_if_invalid_roster]

/-! ## C1: tradability (corrected) -/

/-- C1 counterexample: a `'DROP'`-status player on a roster IS in the
tradable set computed by `get_tradable_players` (real-team mode, injured
trading disallowed), contradicting the claim that DROP-status players
are always excluded from tradability. -/
theorem get_tradable_players_keeps_drop :
    get_tradable_players "TeamB" false [("a", some "DROP")] = ["a"] := by
  decide

/-- C1 amended: a player id is in the tradable set exactly when it
appears on the roster with a status that is not filtered, and the only
filtered status is `'INJ'` — and only when trading with a real team with
injured trading disallowed; every other player, `'DROP'`-status players
included, is tradable. -/
theorem get_tradable_players_filters_only_injured (team2_name : String)
    (allow_trading_injured : Bool)
    (roster_tuples : List (String × Option String)) (pid : String) :
    pid ∈ get_tradable_players team2_name allow_trading_injured
        roster_tuples ↔
      ∃ status, (pid, status) ∈ roster_tuples ∧
        ¬(team2_name ≠ "FreeAgents" ∧ allow_trading_injured = false ∧
          status = some "INJ") := by
  induction roster_tuples with
  | nil => simp [get_tradable_players]
  | cons pr rest ih =>
    obtain ⟨q, st⟩ := pr
    by_cases h : team2_name ≠ "FreeAgents" ∧ allow_trading_injured = false ∧
        st = some "INJ"
    · simp only [get_tradable_players, if_pos h, ih, List.mem_cons,
        Prod.mk.injEq]
      constructor
      · rintro ⟨status, hmem, hst⟩
        exact ⟨status, Or.inr hmem, hst⟩
      · rintro ⟨status, (⟨rfl, rfl⟩ | hmem), hst⟩
        · exact absurd h hst
        · exact ⟨status, hmem, hst⟩
    · simp only [get_tradable_players, if_neg h, List.mem_cons, ih,
        Prod.mk.injEq]
      constructor
      · rintro (rfl | ⟨status, hmem, hst⟩)
        · exact ⟨st, Or.inl ⟨rfl, rfl⟩, h⟩
        · exact ⟨status, Or.inr hmem, hst⟩
      · rintro ⟨status, (⟨rfl, rfl⟩ | hmem), hst⟩
        · exact Or.inl rfl
        · exact Or.inr ⟨status, hmem, hst⟩

/-! ## C9: percentage categories never divide by zero -/

/-- C9: in every weekly comparison, a team week with zero field-goal
attempts is assigned fg% = 0, and — independently — a week with zero
free-throw attempts is assigned ft% = 0 (each via the guarded branch of
the comparator, so no division is ever performed on a zero denominator),
and the weekly category comparison uses exactly that 0 for the team;
each percentage category is covered on its own, whatever the other
category's attempt total is. -/
theorem zero_attempts_pct_zero (t1 t2 : Week) :
    (t1.fga = 0 → fg_pct t1 = 0 ∧
      week_cat_win t1 t2 .fgp = winHigher 0 (fg_pct t2)) ∧
    (t1.fta = 0 → ft_pct t1 = 0 ∧
      week_cat_win t1 t2 .ftp = winHigher 0 (ft_pct t2)) := by
  constructor
  · intro hfga
    have h1 : fg_pct t1 = 0 := by simp [fg_pct, hfga]
    exact ⟨h1, by simp [week_cat_win, h1]⟩
  · intro hfta
    have h2 : ft_pct t1 = 0 := by simp [ft_pct, hfta]
    exact ⟨h2, by simp [week_cat_win, h2]⟩

/-- C9 witness: one concrete week with 0 field-goal attempts but nonzero
free-throw attempts, and one with 0 free-throw attempts but nonzero
field-goal attempts, each discharging its own implication. -/
theorem zero_attempts_pct_zero_witness :
    ((⟨0, 0, 0, 0, 0, 0, 0, 0, 0, 2, 1⟩ : Week).fga = 0 ∧
      (fg_pct (⟨0, 0, 0, 0, 0, 0, 0, 0, 0, 2, 1⟩ : Week) = 0 ∧
        week_cat_win (⟨0, 0, 0, 0, 0, 0, 0, 0, 0, 2, 1⟩ : Week) zeroWeek
          .fgp = winHigher 0 (fg_pct zeroWeek))) ∧
    ((⟨0, 0, 0, 0, 0, 0, 0, 3, 1, 0, 0⟩ : Week).fta = 0 ∧
      (ft_pct (⟨0, 0, 0, 0, 0, 0, 0, 3, 1, 0, 0⟩ : Week) = 0 ∧
        week_cat_win (⟨0, 0, 0, 0, 0, 0, 0, 3, 1, 0, 0⟩ : Week) zeroWeek
          .ftp = winHigher 0 (ft_pct zeroWeek))) :=
  ⟨⟨by decide,
    (zero_attempts_pct_zero (⟨0, 0, 0, 0, 0, 0, 0, 0, 0, 2, 1⟩ : Week)
        zeroWeek).1 (by decide)⟩,
   ⟨by decide,
    (zero_attempts_pct_zero (⟨0, 0, 0, 0, 0, 0, 0, 3, 1, 0, 0⟩ : Week)
        zeroWeek).2 (by decide)⟩⟩

/-! ## C7: the game pool sampler always yields exactly K samples -/

/-- C7: every player in the input id list receives exactly `num_games`
samples, whatever the dummy-games flag and whatever the pool contents;
when the player's pool is empty or missing, every emitted sample is the
synthetic zero-stat DNP game. -/
theorem generate_weighted_game_samples_exact_count (player_ids : List String)
    (num_games : Nat) (pools : List (String × List GameRec))
    (avail : List (String × ℚ)) (include_dummy_games : Bool)
    (rand : String → Nat → ℚ) (pick : String → Nat → Nat)
    (player_id : String) (hmem : player_id ∈ player_ids) :
    ∃ samples,
      py_dict_get (generate_weighted_game_samples player_ids num_games pools
          avail include_dummy_games rand pick) player_id = some samples ∧
      samples.length = num_games ∧
      ((py_dict_get pools player_id).getD [] = [] →
        ∀ g ∈ samples, g = dummyGame) := by
  refine ⟨sample_games_for_player num_games pools avail include_dummy_games
    rand pick player_id, ?_, ?_, ?_⟩
  · unfold generate_weighted_game_samples
    rw [py_dict_get_map_self (sample_games_for_player num_games pools avail
      include_dummy_games rand pick)]
    simp [hmem]
  · simp [sample_games_for_player]
  · intro hpool g hg
    simp only [sample_games_for_player, List.mem_map, List.mem_range] at hg
    obtain ⟨i, _, rfl⟩ := hg
    rw [hpool]
    unfold sample_one_game
    split
    · rfl
    · simp

/-- C7 witness: a concrete player with an empty pool still gets exactly
3 samples, all DNP. -/
theorem generate_weighted_game_samples_exact_count_witness :
    ("a" ∈ ["a"]) ∧
      ∃ samples,
        py_dict_get (generate_weighted_game_samples ["a"] 3 [] []
            true (fun _ _ => 0) (fun _ _ => 0)) "a" = some samples ∧
        samples.length = 3 ∧
        ((py_dict_get ([] : List (String × List GameRec)) "a").getD [] = [] →
          ∀ g ∈ samples, g = dummyGame) :=
  ⟨by decide,
    generate_weighted_game_samples_exact_count ["a"] 3 [] [] true
      (fun _ _ => 0) (fun _ _ => 0) "a" (by decide)⟩

/-! ## C6: the availability estimator computes the smoothed formula -/

theorem virt_fold_spec (ws : List (Nat × ℚ)) (rows : List SeasonRow)
    (v : VirtStats) :
    rows.foldl (accum_virtual ws) v =
      ⟨v.gp + ((rows.filter fun r =>
            decide (0 < weight_of ws r.season)).map
          fun r => (r.games_played : ℚ) * weight_of ws r.season).sum,
       v.tg + ((rows.filter fun r =>
            decide (0 < weight_of ws r.season)).map
          fun r => (r.total_games : ℚ) * weight_of ws r.season).sum,
       v.w + ((rows.filter fun r =>
            decide (0 < weight_of ws r.season)).map
          fun r => weight_of ws r.season).sum⟩ := by
  induction rows generalizing v with
  | nil => simp
  | cons r rest ih =>
    simp only [List.foldl_cons, List.filter_cons]
    by_cases h : 0 < weight_of ws r.season
    · rw [show accum_virtual ws v r =
          ⟨v.gp + (r.games_played : ℚ) * weight_of ws r.season,
           v.tg + (r.total_games : ℚ) * weight_of ws r.season,
           v.w + weight_of ws r.season⟩ by
            simp [accum_virtual, h]]
      rw [ih]
      simp only [h, decide_True, if_true, List.map_cons, List.sum_cons,
        VirtStats.mk.injEq]
      refine ⟨by ring, by ring, by ring⟩
    · rw [show accum_virtual ws v r = v by simp [accum_virtual, h]]
      rw [ih]
      simp [h]

/-- C6: a player with at least one season row carrying a positive weight
gets the Bayesian-smoothed, clamped estimate
`clamp(((Σ w·gp)/(Σ w) + p0·s0) / ((Σ w·tg)/(Σ w) + s0), 0, 1)`
(sums over the positively-weighted seasons); a player none of whose rows
carries positive weight gets exactly the prior `p0` (for a prior that is
a probability). -/
theorem predict_player_probability_formula (year_weights : List (Nat × ℚ))
    (rows : List SeasonRow) (p0 s0 : ℚ) :
    ((∃ r ∈ rows, 0 < weight_of year_weights r.season) →
      predict_player_probability year_weights rows p0 s0 =
        clamp01
          ((((rows.filter fun r =>
                decide (0 < weight_of year_weights r.season)).map
              fun r => (r.games_played : ℚ) *
                weight_of year_weights r.season).sum /
            ((rows.filter fun r =>
                decide (0 < weight_of year_weights r.season)).map
              fun r => weight_of year_weights r.season).sum + p0 * s0) /
          (((rows.filter fun r =>
                decide (0 < weight_of year_weights r.season)).map
              fun r => (r.total_games : ℚ) *
                weight_of year_weights r.season).sum /
            ((rows.filter fun r =>
                decide (0 < weight_of year_weights r.season)).map
              fun r => weight_of year_weights r.season).sum + s0))) ∧
    (0 ≤ p0 → p0 ≤ 1 →
      (∀ r ∈ rows, ¬0 < weight_of year_weights r.season) →
      predict_player_probability year_weights rows p0 s0 = p0) := by
  constructor
  · rintro ⟨r, hr, hw⟩
    have hsum : 0 < ((rows.filter fun r =>
        decide (0 < weight_of year_weights r.season)).map
          fun r => weight_of year_weights r.season).sum := by
      apply List.sum_pos
      · intro x hx
        simp only [List.mem_map, List.mem_filter, decide_eq_true_eq] at hx
        obtain ⟨r', ⟨_, hr'⟩, rfl⟩ := hx
        exact hr'
      · simp only [ne_eq, List.map_eq_nil_iff, List.filter_eq_nil_iff,
          decide_eq_true_eq, not_forall]
        exact ⟨r, hr, by simpa using hw⟩
    unfold predict_player_probability
    rw [virt_fold_spec]
    simp only [zero_add]
    rw [if_pos hsum]
  · intro h0 h1 hnone
    have hfil : (rows.filter fun r =>
        decide (0 < weight_of year_weights r.season)) = [] := by
      rw [List.filter_eq_nil_iff]
      intro r hr
      simpa using hnone r hr
    unfold predict_player_probability
    rw [virt_fold_spec, hfil]
    simp only [List.map_nil, List.sum_nil, add_zero, zero_add]
    rw [if_neg (lt_irrefl 0)]
    unfold clamp01
    rw [min_eq_right h1, max_eq_right h0]

/-- C6 witness: one season (weight 1) with 70 of 82 games played, prior
0.85 over 82 games; and the rookie case at the same prior. -/
theorem predict_player_probability_formula_witness :
    ((∃ r ∈ [(⟨2026, 82, 70⟩ : SeasonRow)],
        0 < weight_of [(2026, 1)] r.season) ∧
      predict_player_probability [(2026, 1)] [⟨2026, 82, 70⟩]
          (85/100) 82 =
        clamp01
          (((([(⟨2026, 82, 70⟩ : SeasonRow)].filter fun r =>
                decide (0 < weight_of [(2026, 1)] r.season)).map
              fun r => (r.games_played : ℚ) *
                weight_of [(2026, 1)] r.season).sum /
            (([(⟨2026, 82, 70⟩ : SeasonRow)].filter fun r =>
                decide (0 < weight_of [(2026, 1)] r.season)).map
              fun r => weight_of [(2026, 1)] r.season).sum +
              85/100 * 82) /
          ((([(⟨2026, 82, 70⟩ : SeasonRow)].filter fun r =>
                decide (0 < weight_of [(2026, 1)] r.season)).map
              fun r => (r.total_games : ℚ) *
                weight_of [(2026, 1)] r.season).sum /
            (([(⟨2026, 82, 70⟩ : SeasonRow)].filter fun r =>
                decide (0 < weight_of [(2026, 1)] r.season)).map
              fun r => weight_of [(2026, 1)] r.season).sum + 82))) ∧
    predict_player_probability [(2026, 1)] [] (85/100) 82 = 85/100 :=
  ⟨⟨⟨⟨2026, 82, 70⟩, by decide, by decide⟩,
    (predict_player_probability_formula [(2026, 1)] [⟨2026, 82, 70⟩]
        (85/100) 82).1 ⟨⟨2026, 82, 70⟩, by decide, by decide⟩⟩,
    (predict_player_probability_formula [(2026, 1)] [] (85/100) 82).2
      (by norm_num) (by norm_num) (by simp)⟩

/-! ## C8: pre-simulated week series always have length W -/

theorem simulate_weeks_ok (pool : Option (List GameRec)) (num_weeks : Nat)
    (coin : Nat → Bool) (pick : Nat → Nat → Nat)
    (h : ∀ l, pool = some l → l = [] ∨ 4 ≤ l.length) :
    ∃ ws, simulate_weeks_for_player pool num_weeks coin pick = some ws ∧
      ws.length = num_weeks ∧
      (pool.getD [] = [] → ws = List.replicate num_weeks zeroWeek) := by
  match pool with
  | none =>
    exact ⟨List.replicate num_weeks zeroWeek, rfl, List.length_replicate _ _,
      fun _ => rfl⟩
  | some [] =>
    exact ⟨List.replicate num_weeks zeroWeek, rfl, List.length_replicate _ _,
      fun _ => rfl⟩
  | some (g :: gs) =>
    have hlen : 4 ≤ (g :: gs).length := by
      rcases h (g :: gs) rfl with h' | h'
      · exact absurd h' (by simp)
      · exact h'
    refine ⟨(List.range num_weeks).map fun k =>
      sum_games_week ((List.range (if coin k then 3 else 4)).map
        fun j => (g :: gs).getD (pick k j % (g :: gs).length) dummyGame),
      ?_, by simp, by intro hc; exact absurd hc (by simp)⟩
    unfold simulate_weeks_for_player
    apply optionMap_eq_map
    intro k _
    have hng : ¬(g :: gs).length < (if coin k then 3 else 4) := by
      split <;> omega
    have hsample : py_random_sample (g :: gs) (if coin k then 3 else 4)
        (pick k) =
        some ((List.range (if coin k then 3 else 4)).map fun j =>
          (g :: gs).getD (pick k j % (g :: gs).length) dummyGame) := by
      unfold py_random_sample
      rw [if_neg hng]
    show Option.map sum_games_week
        (py_random_sample (g :: gs) (if coin k then 3 else 4) (pick k)) = _
    rw [hsample]
    rfl

/-- C8: when every game pool is empty or holds at least 4 games (as the
pools produced by the sampler with `K ≥ 4` always do), the pre-simulation
completes and every player in the id set receives a week series of length
exactly `num_weeks`; players with an empty or missing pool receive the
all-zero weeks. -/
theorem pre_simulate_player_weeks_length
    (game_pools : List (String × List GameRec)) (player_id_set : List String)
    (num_weeks : Nat) (coin : String → Nat → Bool)
    (pick : String → Nat → Nat → Nat)
    (hpools : ∀ pid pool, py_dict_get game_pools pid = some pool →
      pool = [] ∨ 4 ≤ pool.length) :
    ∃ m, pre_simulate_player_weeks game_pools player_id_set num_weeks
        coin pick = some m ∧
      ∀ pid ∈ player_id_set, ∃ ws, py_dict_get m pid = some ws ∧
        ws.length = num_weeks ∧
        ((py_dict_get game_pools pid).getD [] = [] →
          ws = List.replicate num_weeks zeroWeek) := by
  have hone : ∀ pid, ∃ ws,
      simulate_weeks_for_player (py_dict_get game_pools pid) num_weeks
        (coin pid) (pick pid) = some ws ∧
      ws.length = num_weeks ∧
      ((py_dict_get game_pools pid).getD [] = [] →
        ws = List.replicate num_weeks zeroWeek) := by
    intro pid
    exact simulate_weeks_ok _ _ _ _ (fun l hl => hpools pid l hl)
  refine ⟨player_id_set.map fun pid =>
    (pid, (simulate_weeks_for_player (py_dict_get game_pools pid) num_weeks
      (coin pid) (pick pid)).getD []), ?_, ?_⟩
  · unfold pre_simulate_player_weeks
    apply optionMap_eq_map
    intro pid _
    obtain ⟨ws, hws, -, -⟩ := hone pid
    rw [hws]
    rfl
  · intro pid hmem
    obtain ⟨ws, hws, hlen, hzero⟩ := hone pid
    refine ⟨ws, ?_, hlen, hzero⟩
    rw [py_dict_get_map_self (fun pid =>
      (simulate_weeks_for_player (py_dict_get game_pools pid) num_weeks
        (coin pid) (pick pid)).getD [])]
    simp [hmem, hws]

/-- C8 witness: a player with a 4-game pool and a player with no pool,
for 2 simulated weeks. -/
theorem pre_simulate_player_weeks_length_witness :
    (∀ pid pool,
      py_dict_get [("a", [dummyGame, dummyGame, dummyGame, dummyGame])] pid =
        some pool → pool = [] ∨ 4 ≤ pool.length) ∧
    ∃ m, pre_simulate_player_weeks
        [("a", [dummyGame, dummyGame, dummyGame, dummyGame])] ["a", "b"] 2
        (fun _ _ => true) (fun _ _ _ => 0) = some m ∧
      ∀ pid ∈ ["a", "b"], ∃ ws, py_dict_get m pid = some ws ∧
        ws.length = 2 ∧
        ((py_dict_get [("a", [dummyGame, dummyGame, dummyGame, dummyGame])]
            pid).getD [] = [] → ws = List.replicate 2 zeroWeek) := by
  have h1 : ∀ pid pool,
      py_dict_get [("a", [dummyGame, dummyGame, dummyGame, dummyGame])] pid =
        some pool → pool = [] ∨ 4 ≤ pool.length := by
    intro pid pool h
    by_cases hp : ("a" : String) = pid
    · right
      simp only [py_dict_get, List.foldl_cons, List.foldl_nil, if_pos hp] at h
      cases h
      decide
    · simp [py_dict_get, hp] at h
  exact ⟨h1, pre_simulate_player_weeks_length _ _ 2 _ _ h1⟩

/-! ## C3: swapping the compared teams complements every probability -/

theorem winHigher_compl (a b : ℚ) : winHigher a b + winHigher b a = 1 := by
  unfold winHigher
  split_ifs <;> linarith

theorem winLower_compl (a b : ℚ) : winLower a b + winLower b a = 1 := by
  unfold winLower
  split_ifs <;> linarith

theorem week_cat_win_compl (t1 t2 : Week) (c : CatN) :
    week_cat_win t1 t2 c + week_cat_win t2 t1 c = 1 := by
  cases c with
  | tov => exact winLower_compl _ _
  | pts => exact winHigher_compl _ _
  | reb => exact winHigher_compl _ _
  | ast => exact winHigher_compl _ _
  | stl => exact winHigher_compl _ _
  | blk => exact winHigher_compl _ _
  | tpm => exact winHigher_compl _ _
  | fgp => exact winHigher_compl _ _
  | ftp => exact winHigher_compl _ _

theorem week_cat_total_compl (t1 t2 : Week) :
    week_cat_total t1 t2 + week_cat_total t2 t1 = 9 := by
  simp only [week_cat_total, List.map_cons, List.map_nil, List.sum_cons,
    List.sum_nil]
  linarith [week_cat_win_compl t1 t2 .pts, week_cat_win_compl t1 t2 .reb,
    week_cat_win_compl t1 t2 .ast, week_cat_win_compl t1 t2 .stl,
    week_cat_win_compl t1 t2 .blk, week_cat_win_compl t1 t2 .tpm,
    week_cat_win_compl t1 t2 .tov, week_cat_win_compl t1 t2 .fgp,
    week_cat_win_compl t1 t2 .ftp]

theorem week_overall_win_compl (t1 t2 : Week) :
    week_overall_win t1 t2 + week_overall_win t2 t1 = 1 := by
  have htot := week_cat_total_compl t1 t2
  unfold week_overall_win
  rcases lt_trichotomy (week_cat_total t1 t2) (9/2 : ℚ) with h | h | h
  · rw [if_neg (not_lt.mpr h.le), if_neg (ne_of_lt h),
      if_pos (show week_cat_total t2 t1 > 9/2 by linarith)]
    norm_num
  · have h2 : week_cat_total t2 t1 = 9/2 := by linarith
    rw [if_neg (not_lt.mpr h.le), if_pos h, if_neg (not_lt.mpr h2.le),
      if_pos h2]
    norm_num
  · have h2 : week_cat_total t2 t1 < 9/2 := by linarith
    rw [if_pos h, if_neg (not_lt.mpr h2.le), if_neg (ne_of_lt h2)]
    norm_num

theorem week_win_compl (t1 t2 : Week) (c : CatK) :
    week_win t1 t2 c + week_win t2 t1 c = 1 := by
  cases c with
  | cat c => exact week_cat_win_compl t1 t2 c
  | overall => exact week_overall_win_compl t1 t2

theorem list_sum_map_add {α : Type} (l : List α) (f g : α → ℚ) :
    (l.map fun x => f x + g x).sum = (l.map f).sum + (l.map g).sum := by
  induction l with
  | nil => simp
  | cons x xs ih => simp [ih]; ring

/-- C3: for week lists of equal positive length, the comparator's win
probabilities for `(t1, t2)` and `(t2, t1)` sum to exactly 1 in every
category and in the overall outcome (ties scored ½ each side). -/
theorem compare_n_weeks_complement (t1 t2 : List Week)
    (hlen : t1.length = t2.length) (hpos : 0 < t1.length) (c : CatK) :
    compare_n_weeks t1 t2 c + compare_n_weeks t2 t1 c = 1 := by
  have hne : t1.length ≠ 0 := hpos.ne'
  have hne2 : t2.length ≠ 0 := by rw [← hlen]; exact hne
  unfold compare_n_weeks
  rw [if_neg hne, if_neg hne2, ← hlen]
  have hswap : ((t2.zip t1).map fun p => week_win p.1 p.2 c) =
      ((t1.zip t2).map fun p => week_win p.2 p.1 c) := by
    rw [← List.zip_swap t1 t2, List.map_map]
    rfl
  rw [hswap, div_add_div_same, ← list_sum_map_add]
  have hptwise : ∀ p ∈ t1.zip t2,
      week_win p.1 p.2 c + week_win p.2 p.1 c = 1 := fun p _ =>
    week_win_compl p.1 p.2 c
  rw [List.map_congr_left hptwise]
  have hconst : ((t1.zip t2).map fun _ => (1 : ℚ)).sum =
      ((t1.zip t2).length : ℚ) := by
    induction t1.zip t2 with
    | nil => simp
    | cons x xs ih => simp [ih, add_comm]
  rw [hconst, List.length_zip, ← hlen, min_self]
  exact div_self (Nat.cast_ne_zero.mpr hne)

/-- C3 witness: two concrete one-week lists. -/
theorem compare_n_weeks_complement_witness :
    (([zeroWeek] : List Week).length =
        ([⟨1, 2, 3, 4, 5, 6, 7, 8, 4, 2, 1⟩] : List Week).length ∧
        0 < ([zeroWeek] : List Week).length) ∧
      compare_n_weeks [zeroWeek]
          ([⟨1, 2, 3, 4, 5, 6, 7, 8, 4, 2, 1⟩] : List Week) CatK.overall +
        compare_n_weeks ([⟨1, 2, 3, 4, 5, 6, 7, 8, 4, 2, 1⟩] : List Week)
          [zeroWeek] CatK.overall = 1 :=
  ⟨⟨by decide, by decide⟩,
    compare_n_weeks_complement [zeroWeek]
      ([⟨1, 2, 3, 4, 5, 6, 7, 8, 4, 2, 1⟩] : List Week)
      (by decide) (by decide) CatK.overall⟩

/-! ## C4: the roster-size invariant and the abort path (corrected) -/

theorem exceptMap_ok_mem {ε α β : Type} {f : α → Except ε β} {l : List α}
    {res : List β} (h : exceptMap f l = .ok res) {x : α} (hx : x ∈ l) :
    ∃ y, f x = .ok y := by
  induction l generalizing res with
  | nil => cases hx
  | cons a as ih =>
    unfold exceptMap at h
    rcases hfa : f a with e | y
    · rw [hfa] at h; cases h
    · rw [hfa] at h
      rcases hrest : exceptMap f as with e | ys
      · rw [hrest] at h; cases h
      · rcases List.mem_cons.mp hx with rfl | hx'
        · exact ⟨y, hfa⟩
        · exact ih hrest hx'

theorem validate_ok_length {team : String} {ids : List String} {scen : String}
    {u : Unit} (hteam : team ≠ "FreeAgents")
    (h : validate_and_crash_if_invalid_roster team ids scen = .ok u) :
    ids.length = EXPECTED_ROSTER_SIZE := by
  unfold validate_and_crash_if_invalid_roster at h
  rw [if_neg hteam] at h
  by_cases hlen : ids.length ≠ EXPECTED_ROSTER_SIZE
  · rw [if_pos hlen] at h; cases h
  · exact not_ne_iff.mp hlen

/-- C4 counterexample: a roster map entry named `"FreeAgents"` with a
1-player roster sails through the orchestrator's build loop: no abort
happens and its team weeks ARE built, although the filtered roster length
is not the expected 13. -/
theorem free_agents_entry_skips_size_check :
    (filter_roster [("x", none)] true).length ≠ EXPECTED_ROSTER_SIZE ∧
      build_team_entry "FreeAgents" [("x", none)] [] 1 =
        .ok ([zeroWeek], [zeroWeek]) := by
  constructor
  · decide
  · rfl

/-- C4 amended: for every team NOT named `"FreeAgents"`, either both
scenario-filtered rosters have exactly the expected 13 players, or the
orchestrator's build phase aborts with diagnostics naming the team, the
scenario, the expected and actual counts, and the full offending roster —
and the abort fires before that roster's team weeks are built (the error
value is produced by the validator, independently of the stats map).
A team named `"FreeAgents"` is exempt (see the C10 theorem). -/
theorem roster_size_invariant_enforced
    (teams : List (String × List (String × Option String)))
    (stats : List (String × List Week)) (n_sim_weeks : Nat) :
    (∀ res, build_phase teams stats n_sim_weeks = .ok res →
      ∀ tr ∈ teams, tr.1 ≠ "FreeAgents" →
        (filter_roster tr.2 true).length = EXPECTED_ROSTER_SIZE ∧
        (filter_roster tr.2 false).length = EXPECTED_ROSTER_SIZE) ∧
    (∀ team roster, team ≠ "FreeAgents" →
      (filter_roster roster true).length ≠ EXPECTED_ROSTER_SIZE →
      build_team_entry team roster stats n_sim_weeks =
        .error ⟨team, "FullStrength", EXPECTED_ROSTER_SIZE,
          (filter_roster roster true).length, filter_roster roster true⟩) ∧
    (∀ team roster, team ≠ "FreeAgents" →
      (filter_roster roster true).length = EXPECTED_ROSTER_SIZE →
      (filter_roster roster false).length ≠ EXPECTED_ROSTER_SIZE →
      build_team_entry team roster stats n_sim_weeks =
        .error ⟨team, "Current", EXPECTED_ROSTER_SIZE,
          (filter_roster roster false).length, filter_roster roster false⟩) := by
  have herr1 : ∀ team (roster : List (String × Option String)),
      team ≠ "FreeAgents" →
      (filter_roster roster true).length ≠ EXPECTED_ROSTER_SIZE →
      build_team_entry team roster stats n_sim_weeks =
        .error ⟨team, "FullStrength", EXPECTED_ROSTER_SIZE,
          (filter_roster roster true).length, filter_roster roster true⟩ := by
    intro team roster hteam hlen
    unfold build_team_entry validate_and_crash_if_invalid_roster
    rw [if_neg hteam, if_pos hlen]
  have herr2 : ∀ team (roster : List (String × Option String)),
      team ≠ "FreeAgents" →
      (filter_roster roster true).length = EXPECTED_ROSTER_SIZE →
      (filter_roster roster false).length ≠ EXPECTED_ROSTER_SIZE →
      build_team_entry team roster stats n_sim_weeks =
        .error ⟨team, "Current", EXPECTED_ROSTER_SIZE,
          (filter_roster roster false).length, filter_roster roster false⟩ := by
    intro team roster hteam hlen1 hlen2
    unfold build_team_entry validate_and_crash_if_invalid_roster
    rw [if_neg hteam, if_neg (not_ne_iff.mpr hlen1), if_neg hteam,
      if_pos hlen2]
  refine ⟨?_, herr1, herr2⟩
  intro res hres tr htr hteam
  obtain ⟨y, hy⟩ := exceptMap_ok_mem hres htr
  rcases hentry : build_team_entry tr.1 tr.2 stats n_sim_weeks with e | p
  · rw [hentry] at hy; cases hy
  · have h1 : (filter_roster tr.2 true).length = EXPECTED_ROSTER_SIZE := by
      by_contra hlen
      rw [herr1 tr.1 tr.2 hteam hlen] at hentry
      cases hentry
    refine ⟨h1, ?_⟩
    by_contra hlen2
    rw [herr2 tr.1 tr.2 hteam h1 hlen2] at hentry
    cases hentry

/-- C4 witness: a 1-player roster on a real team aborts the build with
the full diagnostics. -/
theorem roster_size_invariant_enforced_witness :
    (("A" : String) ≠ "FreeAgents" ∧
        (filter_roster [("x", none)] true).length ≠ EXPECTED_ROSTER_SIZE) ∧
      build_team_entry "A" [("x", none)] [] 0 =
        .error ⟨"A", "FullStrength", EXPECTED_ROSTER_SIZE,
          (filter_roster [("x", none)] true).length,
          filter_roster [("x", none)] true⟩ :=
  ⟨⟨by decide, by decide⟩,
    (roster_size_invariant_enforced [] [] 0).2.1 "A" [("x", none)]
      (by decide) (by decide)⟩

/-! ## C2: the trade acceptance criterion -/

theorem accept_gains_iff (team2 : String) (tol : ℚ) (g : ℚ × ℚ)
    (hreal : team2 ≠ "FreeAgents") :
    accept_gains team2 tol g = true ↔ (0 < g.1 ∧ -tol ≤ g.2) := by
  unfold accept_gains
  split_ifs with hg1 hg2
  · simp [not_lt.mpr hg1]
  · simp [not_le.mpr hg2.2]
  · exact iff_of_true rfl
      ⟨not_le.mp hg1, not_lt.mp fun hlt => hg2 ⟨hreal, hlt⟩⟩

/-- C2: a trade candidate between two real teams that passes the
required-player and status-symmetry pre-checks, and whose two scenario
evaluations complete without a roster abort, is appended to the
successful-trades list if and only if in BOTH scenarios team 1's summed
win-probability gain versus baseline is strictly positive and team 2's
summed delta is at least minus the configured tolerance. -/
theorem find_trades_acceptance_criterion (env : TradeEnv)
    (t1_out t2_out : List String) (a1 b1 a2 b2 : ℚ)
    (hreal : env.team2 ≠ "FreeAgents")
    (hreq : passes_required env t1_out t2_out = true)
    (hsym : passes_symmetry env t1_out t2_out = true)
    (h1 : check_scen env t1_out t2_out "FullStrength" = .ok (a1, b1))
    (h2 : check_scen env t1_out t2_out "Current" = .ok (a2, b2)) :
    candidate_accepted env t1_out t2_out = .ok true ↔
      ((0 < a1 ∧ -env.tol ≤ b1) ∧ (0 < a2 ∧ -env.tol ≤ b2)) := by
  unfold candidate_accepted
  rw [hreq, hsym, h1, h2]
  simp only [Bool.true_eq_false, if_false]
  rcases haccept1 : accept_gains env.team2 env.tol (a1, b1) with _ | _
  · rw [if_pos rfl]
    have hnot : ¬(0 < a1 ∧ -env.tol ≤ b1) := by
      intro hh
      have := (accept_gains_iff env.team2 env.tol (a1, b1) hreal).mpr hh
      rw [haccept1] at this
      cases this
    simp [hnot]
  · rw [if_neg (by decide : ¬(true : Bool) = false)]
    have hr1 : 0 < a1 ∧ -env.tol ≤ b1 :=
      (accept_gains_iff env.team2 env.tol (a1, b1) hreal).mp haccept1
    simp only [Except.ok.injEq]
    rw [accept_gains_iff env.team2 env.tol (a2, b2) hreal]
    exact ⟨fun hh => ⟨hr1, hh⟩, fun hh => hh.2⟩

/-! ## C5: accepted trades exchange equal DROP and INJ counts -/

/-- C5: every candidate accepted by the trade search between two real
teams exchanges equally many `'DROP'`-status players in each direction,
and equally many `'INJ'`-status players in each direction (statuses per
the pre-trade status map). -/
theorem accepted_trade_status_symmetry (env : TradeEnv)
    (t1_out t2_out : List String)
    (hreal : env.team2 ≠ "FreeAgents")
    (hacc : candidate_accepted env t1_out t2_out = .ok true) :
    count_status env t1_out "DROP" = count_status env t2_out "DROP" ∧
      count_status env t1_out "INJ" = count_status env t2_out "INJ" := by
  have hsym : passes_symmetry env t1_out t2_out = true := by
    rcases hps : passes_symmetry env t1_out t2_out with _ | _
    · exfalso
      unfold candidate_accepted at hacc
      by_cases hreq : passes_required env t1_out t2_out = false
      · rw [if_pos hreq] at hacc
        simp at hacc
      · rw [if_neg hreq, if_pos hps] at hacc
        simp at hacc
    · rfl
  unfold passes_symmetry at hsym
  rw [if_neg hreal] at hsym
  exact of_decide_eq_true hsym

/-! ## Witness environment for the trade-search theorems -/

/-- A concrete two-team league: 13 active players a side, no uninvolved
opponents, zero simulated weeks, and a baseline table making the 1-for-1
trade `p1 <-> q1` a strict improvement for team A within tolerance 0 for
team B. -/
def envW : TradeEnv where
  team1 := "A"
  team2 := "B"
  t1_roster :=
    [("p1", none), ("p2", none), ("p3", none), ("p4", none), ("p5", none),
     ("p6", none), ("p7", none), ("p8", none), ("p9", none), ("p10", none),
     ("p11", none), ("p12", none), ("p13", none)]
  t2_roster :=
    [("q1", none), ("q2", none), ("q3", none), ("q4", none), ("q5", none),
     ("q6", none), ("q7", none), ("q8", none), ("q9", none), ("q10", none),
     ("q11", none), ("q12", none), ("q13", none)]
  other_teams := []
  team_weeks := fun _ _ => []
  h2h := fun a b _ =>
    if a = "A" ∧ b = "B" then some (-(1 : ℚ)/2)
    else if a = "B" ∧ b = "A" then some 1
    else none
  stats := []
  n_weeks := 0
  tol := 0
  required := []

/-- C2 witness: the concrete candidate `p1 <-> q1` in `envW` satisfies
all hypotheses and is accepted. -/
theorem find_trades_acceptance_criterion_witness :
    (envW.team2 ≠ "FreeAgents" ∧
        passes_required envW ["p1"] ["q1"] = true ∧
        passes_symmetry envW ["p1"] ["q1"] = true ∧
        check_scen envW ["p1"] ["q1"] "FullStrength" = .ok (1/2, 0) ∧
        check_scen envW ["p1"] ["q1"] "Current" = .ok (1/2, 0)) ∧
      candidate_accepted envW ["p1"] ["q1"] = .ok true := by
  have h1 : check_scen envW ["p1"] ["q1"] "FullStrength" = .ok (1/2, 0) :=
    of_decide_eq_true (by with_unfolding_all rfl)
  have h2 : check_scen envW ["p1"] ["q1"] "Current" = .ok (1/2, 0) :=
    of_decide_eq_true (by with_unfolding_all rfl)
  refine ⟨⟨by decide, by decide, by decide, h1, h2⟩, ?_⟩
  exact (find_trades_acceptance_criterion envW ["p1"] ["q1"] (1/2) 0 (1/2) 0
    (by decide) (by decide) (by decide) h1 h2).mpr
    (of_decide_eq_true (by with_unfolding_all rfl))

/-- C5 witness: the accepted concrete candidate exchanges equal DROP and
equal INJ counts. -/
theorem accepted_trade_status_symmetry_witness :
    (envW.team2 ≠ "FreeAgents" ∧
        candidate_accepted envW ["p1"] ["q1"] = .ok true) ∧
      (count_status envW ["p1"] "DROP" = count_status envW ["q1"] "DROP" ∧
        count_status envW ["p1"] "INJ" = count_status envW ["q1"] "INJ") := by
  have hacc : candidate_accepted envW ["p1"] ["q1"] = .ok true :=
    of_decide_eq_true (by with_unfolding_all rfl)
  exact ⟨⟨by decide, hacc⟩,
    accepted_trade_status_symmetry envW ["p1"] ["q1"] (by decide) hacc⟩

end FantasyBball
